import Mathlib

/-!
Verification of the scheduling and caching subsystem of a stock-update bot
(`src/bot.py`).  The Python functions are shallowly embedded as Lean
definitions: wall-clock datetimes become a record of local calendar fields,
the quote cache becomes an association list threaded explicitly, and the
update cycle becomes a pure function of its collaborators (config, clock,
channel resolver, fetch function).
-/

namespace StockBot

/--
A timezone-aware Python `datetime` in the US Eastern zone, reduced to its
local wall-clock fields.  `day` counts calendar days from an epoch chosen so
that day 0 is a Monday; hence `day % 7` is exactly Python's
`datetime.weekday()` (0 = Monday … 6 = Sunday).

All arithmetic the embedded code performs (`replace`, `+ timedelta`) is
naive wall-clock arithmetic that carries the `tzinfo` along unchanged, and
comparisons are between values with the same `tzinfo`, so local wall-clock
order coincides with instant order for every computation modelled here.
-/
structure DateTime where
  day : Nat
  hour : Nat
  minute : Nat
  second : Nat
  microsecond : Nat
deriving DecidableEq, Repr

/-- A real clock reading has its fields in range. -/
def DateTime.WF (dt : DateTime) : Prop :=
  dt.hour < 24 ∧ dt.minute < 60 ∧ dt.second < 60 ∧ dt.microsecond < 1000000

instance (dt : DateTime) : Decidable dt.WF := by
  unfold DateTime.WF; infer_instance

/-- Python's `datetime.weekday()`: 0 = Monday … 6 = Sunday. -/
def DateTime.weekday (dt : DateTime) : Nat := dt.day % 7

/-- Minutes elapsed since local midnight (`now.hour * 60 + now.minute`). -/
def DateTime.minutesOfDay (dt : DateTime) : Nat := dt.hour * 60 + dt.minute

/-- Total microseconds since the epoch; instants compare by this value. -/
def DateTime.toMicros (dt : DateTime) : Nat :=
  (((dt.day * 24 + dt.hour) * 60 + dt.minute) * 60 + dt.second) * 1000000
    + dt.microsecond

/-- `dt + timedelta(minutes=m)`: renormalise the day/hour/minute fields,
seconds and microseconds are untouched. -/
def DateTime.addMinutes (dt : DateTime) (m : Nat) : DateTime :=
  let total := (dt.day * 24 + dt.hour) * 60 + dt.minute + m
  { day := total / 1440, hour := total % 1440 / 60, minute := total % 60,
    second := dt.second, microsecond := dt.microsecond }

/-- The valid interval presets of `INTERVAL_PRESETS` (values, in minutes). -/
def INTERVAL_PRESETS : List Nat := [15, 30, 60, 120, 240]

/-- The `while next_time.weekday() > 4: next_time += timedelta(days=1)` loop
of `get_next_interval_time`. -/
def skipWeekend (dt : DateTime) : DateTime :=
  if dt.day % 7 > 4 then skipWeekend { dt with day := dt.day + 1 } else dt
termination_by (if dt.day % 7 ≤ 4 then 0 else 7 - dt.day % 7)
decreasing_by split <;> split <;> omega

/--
`get_next_interval_time(interval_minutes)` of `src/bot.py`, with the global
clock read `datetime.now(ET)` passed in as `now`.  Rounds up to the next
multiple of `interval_minutes` past local midnight; a candidate at hour ≥ 20
is replaced by 4:00 AM of the next day, advanced past any weekend.
-/
def get_next_interval_time (interval_minutes : Nat) (now : DateTime) : DateTime :=
  let minutes_since_midnight := now.hour * 60 + now.minute
  let intervals_passed := minutes_since_midnight / interval_minutes
  let next_interval_minutes := (intervals_passed + 1) * interval_minutes
  let midnight : DateTime :=
    { day := now.day, hour := 0, minute := 0, second := 0, microsecond := 0 }
  let next_time := midnight.addMinutes next_interval_minutes
  if next_time.hour ≥ 20 then
    let rolled : DateTime := { next_time with hour := 4, minute := 0 }
    skipWeekend { rolled with day := rolled.day + 1 }
  else
    next_time

/--
`is_trading_hours()` of `src/bot.py`, with the clock read passed in:
false on Saturday/Sunday, otherwise true iff `4 <= now.hour < 20`.
-/
def is_trading_hours (now : DateTime) : Bool :=
  if now.weekday > 4 then false
  else decide (4 ≤ now.hour ∧ now.hour < 20)

/-- Python's `str.upper` as used on ticker symbols: character-wise ASCII
uppercasing (`Char.toUpper` maps `'a'..'z'` down by 32, fixes the rest). -/
def upper (s : String) : String := ⟨s.data.map Char.toUpper⟩

variable {Q : Type}

/--
The module-level `_cache` dict, `{ticker: (data_dict, timestamp)}`.  A dict
keyed by strings is modelled as an association list where an insertion
shadows older bindings; `cacheFind` reads the newest binding for a key.
Quote payloads are an abstract type `Q` (the Python value is a dict of
floats built by `_fetch_stock_data_raw`; nothing in the cache logic inspects
it).  Timestamps (`time.time()`) are seconds as integers.
-/
abbrev Cache (Q : Type) := List (String × Q × Int)

def CACHE_TTL : Int := 60

/-- `ticker in _cache` / `_cache[ticker]` lookup. -/
def cacheFind (c : Cache Q) (t : String) : Option (Q × Int) :=
  (c.find? (fun e => e.1 == t)).map (fun e => e.2)

/--
`get_cached_stock(ticker)` of `src/bot.py`.  The ambient pieces are passed
explicitly: the cache `c`, the underlying `_fetch_stock_data_raw` as
`fetch` (returning `none` on failure, as the Python returns `None`), and the
`time.time()` reading as `now`.  Returns the data (`none` on failure), the
new cache state, and whether the underlying fetch was invoked.
-/
def get_cached_stock (c : Cache Q) (ticker : String) (fetch : String → Option Q)
    (now : Int) : Option Q × Cache Q × Bool :=
  let t := upper ticker
  let fresh : Option Q :=
    match cacheFind c t with
    | some (data, ts) => if now - ts < CACHE_TTL then some data else none
    | none => none
  match fresh with
  | some data => (some data, c, false)
  | none =>
    match fetch t with
    | some data => (some data, (t, data, now) :: c, true)
    | none => (none, c, true)

/-- `clear_cache()` of `src/bot.py`. -/
def clear_cache : Cache Q := []

/-- The configuration record produced by `load_config()` (defaults:
`channel_id = None`, `stocks = []`, `interval_minutes = 60`). -/
structure Config where
  channel_id : Option Int
  stocks : List String
  interval_minutes : Nat
deriving DecidableEq, Repr

/-- Python truthiness of the `channel_id` field: `None` and `0` are falsy. -/
def truthyChannel : Option Int → Bool
  | none => false
  | some n => n != 0

/--
`fetch_all_stocks(tickers)` of `src/bot.py`: sequential cached lookups, one
per ticker, threading the cache.  Returns the per-ticker results in order,
the final cache, and the number of underlying fetch invocations.  All
lookups of one batch share one `time.time()` reading `now` (the Python
readings differ by microseconds; nothing in the logic distinguishes them).
-/
def fetch_all_stocks (c : Cache Q) (fetch : String → Option Q) (now : Int) :
    List String → List (Option Q) × Cache Q × Nat
  | [] => ([], c, 0)
  | t :: ts =>
    let r := get_cached_stock c t fetch now
    let rest := fetch_all_stocks r.2.1 fetch now ts
    (r.1 :: rest.1, rest.2.1, r.2.2.toNat + rest.2.2)

/--
The `description` of the embed built by `create_stock_embed(stocks_data)`.
The per-stock line rendering (emoji, `:.2f` price formatting) is delegated
to the abstract `renderLine`, as the cache logic delegates to the opaque
quote dict; the control flow — empty batch, skipping `None` entries,
joining with blank lines, empty-state fallback — is the source's.
-/
def create_stock_embed_description (renderLine : Q → String)
    (stocks_data : List (Option Q)) : String :=
  if stocks_data.isEmpty then "No stock data available."
  else
    let lines := (stocks_data.filterMap id).map renderLine
    if lines.isEmpty then "No valid stock data." else String.intercalate "\n\n" lines

/--
`run_scheduled_update()` of `src/bot.py`, with its collaborators passed in:
the loaded `config`, the `datetime.now(ET)` reading `now` consumed by
`is_trading_hours`, `bot.get_channel` as `getChannel` (`none` when the
channel cannot be resolved, matching Python's falsy `None`), the embed line
renderer, the cache, the raw fetch function and the `time.time()` reading.
Returns the list of sent embed descriptions (empty = no send), the final
cache, and the number of underlying fetch invocations.
-/
def run_scheduled_update (config : Config) (now : DateTime)
    (getChannel : Int → Option Unit) (renderLine : Q → String)
    (c : Cache Q) (fetch : String → Option Q) (fetchNow : Int) :
    List String × Cache Q × Nat :=
  if !truthyChannel config.channel_id || config.stocks.isEmpty then ([], c, 0)
  else if !is_trading_hours now then ([], c, 0)
  else
    match config.channel_id with
    | none => ([], c, 0)
    | some cid =>
      match getChannel cid with
      | none => ([], c, 0)
      | some _ =>
        let r := fetch_all_stocks c fetch fetchNow config.stocks
        ([create_stock_embed_description renderLine r.1], r.2.1, r.2.2)

/-! ## Helper lemmas -/

lemma char_toNat_ofNat_of_valid (n : Nat) (h : n.isValidChar) :
    (Char.ofNat n).toNat = n := by
  rw [Char.ofNat, dif_pos h]
  rfl

lemma char_toUpper_idem (c : Char) : c.toUpper.toUpper = c.toUpper := by
  simp only [Char.toUpper]
  by_cases h : c.toNat ≥ 97 ∧ c.toNat ≤ 122
  · rw [if_pos h, if_neg]
    have hv : (c.toNat - 32).isValidChar := Or.inl (by omega)
    rw [char_toNat_ofNat_of_valid _ hv]
    omega
  · rw [if_neg h, if_neg h]

lemma upper_idem (s : String) : upper (upper s) = upper s := by
  unfold upper
  simp only [List.map_map]
  exact congrArg String.mk (List.map_congr_left fun c _ => char_toUpper_idem c)

lemma skipWeekend_spec (dt : DateTime) :
    (skipWeekend dt).hour = dt.hour ∧ (skipWeekend dt).minute = dt.minute ∧
    (skipWeekend dt).second = dt.second ∧
    (skipWeekend dt).microsecond = dt.microsecond ∧
    dt.day ≤ (skipWeekend dt).day ∧ (skipWeekend dt).day % 7 ≤ 4 := by
  induction dt using skipWeekend.induct with
  | case1 dt h ih =>
    rw [skipWeekend, if_pos h]
    simp only at ih ⊢
    omega
  | case2 dt h =>
    rw [skipWeekend, if_neg h]
    omega

/-- Facts about the aligned candidate minute count `(mins / i + 1) * i`
for a preset interval `i`: it exceeds `mins`, stays within one day, and is
a multiple of `i`. -/
lemma candidate_facts (i : Nat) (hi : i ∈ INTERVAL_PRESETS) (mins : Nat)
    (hlt : mins < 1440) :
    mins < (mins / i + 1) * i ∧ (mins / i + 1) * i ≤ 1440 ∧
    i ∣ (mins / i + 1) * i := by
  have hpos : 0 < i := by fin_cases hi <;> norm_num
  have hdvd : i ∣ 1440 := by fin_cases hi <;> norm_num
  refine ⟨?_, ?_, ⟨mins / i + 1, by ring⟩⟩
  · calc mins = i * (mins / i) + mins % i := (Nat.div_add_mod mins i).symm
      _ < i * (mins / i) + i := Nat.add_lt_add_left (Nat.mod_lt _ hpos) _
      _ = (mins / i + 1) * i := by ring
  · have h3 : mins / i < 1440 / i := Nat.div_lt_div_of_lt_of_dvd hdvd hlt
    calc (mins / i + 1) * i ≤ 1440 / i * i := Nat.mul_le_mul_right i h3
      _ = 1440 := Nat.div_mul_cancel hdvd

lemma skipWeekend_hour (dt : DateTime) : (skipWeekend dt).hour = dt.hour :=
  (skipWeekend_spec dt).1

lemma skipWeekend_toMicros_le (dt : DateTime) :
    dt.toMicros ≤ (skipWeekend dt).toMicros := by
  obtain ⟨h1, h2, h3, h4, h5, -⟩ := skipWeekend_spec dt
  unfold DateTime.toMicros
  rw [h1, h2, h3, h4]
  have h6 := h5
  omega

/-! ## Claim theorems -/

/--
C3: `is_trading_hours` returns true iff the instant's weekday is Monday
through Friday (0–4) and the local hour is in [4, 20); in particular it is
false on any weekend instant, true at Wednesday 04:00:00 exactly, and false
at Wednesday 20:00:00 exactly (day 2 of the epoch week is a Wednesday).
-/
theorem C3_is_trading_hours_iff :
    (∀ now : DateTime, is_trading_hours now = true ↔
        now.weekday ≤ 4 ∧ 4 ≤ now.hour ∧ now.hour < 20)
    ∧ is_trading_hours ⟨2, 4, 0, 0, 0⟩ = true
    ∧ is_trading_hours ⟨2, 20, 0, 0, 0⟩ = false := by
  refine ⟨fun now => ?_, by decide, by decide⟩
  unfold is_trading_hours
  split
  · simp only [Bool.false_eq_true, false_iff]
    omega
  · simp only [decide_eq_true_eq]
    omega

/--
C10: for every preset interval, the instant returned by
`get_next_interval_time` has zero second and microsecond components (a
whole-minute boundary), on both the normal and the 20:00-rollover path.
-/
theorem C10_next_time_whole_minute (i : Nat) (_hi : i ∈ INTERVAL_PRESETS)
    (now : DateTime) :
    (get_next_interval_time i now).second = 0 ∧
    (get_next_interval_time i now).microsecond = 0 := by
  simp only [get_next_interval_time, DateTime.addMinutes]
  split
  · obtain ⟨-, -, h3, h4, -, -⟩ := skipWeekend_spec _
    exact ⟨h3, h4⟩
  · exact ⟨rfl, rfl⟩

/-- C10 witness at interval 60, Monday 09:59:30.000005. -/
theorem C10_next_time_whole_minute_witness :
    60 ∈ INTERVAL_PRESETS ∧
    ((get_next_interval_time 60 ⟨0, 9, 59, 30, 5⟩).second = 0 ∧
     (get_next_interval_time 60 ⟨0, 9, 59, 30, 5⟩).microsecond = 0) :=
  ⟨by decide, C10_next_time_whole_minute 60 (by decide) ⟨0, 9, 59, 30, 5⟩⟩

/--
C1 fails on the code: with a 60-minute interval at Friday 23:30 (day 4 of
the epoch week is a Friday, a weekday), the aligned candidate is minute 1440
of the day, i.e. midnight of the next day, whose hour 0 escapes the
`hour >= 20` rollover check — so `get_next_interval_time` returns Saturday
00:00 (weekday 5).
-/
theorem C1_counterexample :
    60 ∈ INTERVAL_PRESETS ∧ (⟨4, 23, 30, 0, 0⟩ : DateTime).WF ∧
    (get_next_interval_time 60 ⟨4, 23, 30, 0, 0⟩).weekday = 5 := by
  decide

/--
C1 amended: for every preset interval and every well-formed instant `now`
that itself falls on Monday–Friday, the result of `get_next_interval_time`
falls on a weekday — unless the aligned candidate is exactly midnight of
the following calendar day (i.e. `now` lies in the day's final interval),
in which case that midnight is returned unchecked and may fall on a
weekend (Friday → Saturday 00:00).  (When `now` itself falls on a weekend,
the normal path returns a same-day, hence weekend, result.)
-/
theorem C1_amended_weekday (i : Nat) (hi : i ∈ INTERVAL_PRESETS)
    (now : DateTime) (hwf : now.WF) (hwd : now.weekday ≤ 4) :
    (get_next_interval_time i now).weekday ≤ 4 ∨
    get_next_interval_time i now =
      { day := now.day + 1, hour := 0, minute := 0, second := 0,
        microsecond := 0 } := by
  obtain ⟨hh, hm, -, -⟩ := hwf
  obtain ⟨hgt, hle, hdvd⟩ :=
    candidate_facts i hi (now.hour * 60 + now.minute) (by omega)
  simp only [get_next_interval_time, DateTime.addMinutes, DateTime.weekday]
    at hwd ⊢
  generalize hM : ((now.hour * 60 + now.minute) / i + 1) * i = M
    at hgt hle hdvd ⊢
  split
  · exact Or.inl (skipWeekend_spec _).2.2.2.2.2
  · by_cases h1440 : M = 1440
    · subst h1440
      right
      simp only [DateTime.mk.injEq, and_true]
      omega
    · left
      dsimp only
      omega

/-- C1 amended witness at interval 60, Wednesday 10:07:03. -/
theorem C1_amended_weekday_witness :
    60 ∈ INTERVAL_PRESETS ∧ (⟨2, 10, 7, 3, 0⟩ : DateTime).WF ∧
    (⟨2, 10, 7, 3, 0⟩ : DateTime).weekday ≤ 4 ∧
    ((get_next_interval_time 60 ⟨2, 10, 7, 3, 0⟩).weekday ≤ 4 ∨
     get_next_interval_time 60 ⟨2, 10, 7, 3, 0⟩ =
       { day := 3, hour := 0, minute := 0, second := 0, microsecond := 0 }) :=
  ⟨by decide, by decide, by decide,
    C1_amended_weekday 60 (by decide) ⟨2, 10, 7, 3, 0⟩ (by decide) (by decide)⟩

/--
C2: for every preset interval and every well-formed instant `now`,
`get_next_interval_time i now` is strictly later than `now`, and either its
minutes-from-local-midnight count is an exact multiple of the interval, or
its hour is exactly 4 on a weekday (the 20:00-rollover path).
-/
theorem C2_next_time_later_and_aligned (i : Nat) (hi : i ∈ INTERVAL_PRESETS)
    (now : DateTime) (hwf : now.WF) :
    now.toMicros < (get_next_interval_time i now).toMicros ∧
    ((get_next_interval_time i now).minutesOfDay % i = 0 ∨
     ((get_next_interval_time i now).hour = 4 ∧
      (get_next_interval_time i now).weekday ≤ 4)) := by
  obtain ⟨hh, hm, hs, hmu⟩ := hwf
  obtain ⟨hgt, hle, hdvd⟩ :=
    candidate_facts i hi (now.hour * 60 + now.minute) (by omega)
  simp only [get_next_interval_time, DateTime.addMinutes]
  generalize hM : ((now.hour * 60 + now.minute) / i + 1) * i = M
    at hgt hle hdvd ⊢
  split
  · refine ⟨lt_of_lt_of_le ?_ (skipWeekend_toMicros_le _),
      Or.inr ⟨?_, (skipWeekend_spec _).2.2.2.2.2⟩⟩
    · simp only [DateTime.toMicros]
      omega
    · rw [skipWeekend_hour]
  · refine ⟨?_, Or.inl ?_⟩
    · simp only [DateTime.toMicros]
      omega
    · simp only [DateTime.minutesOfDay]
      have he : ((now.day * 24 + 0) * 60 + 0 + M) % 1440 / 60 * 60 +
          ((now.day * 24 + 0) * 60 + 0 + M) % 60 = M % 1440 := by omega
      rw [he]
      rcases Nat.lt_or_ge M 1440 with h | h
      · rw [Nat.mod_eq_of_lt h]
        exact Nat.mod_eq_zero_of_dvd hdvd
      · have h0 : M = 1440 := by omega
        subst h0
        simp

/-- C2 witness at interval 60, Wednesday 10:07:03.000009. -/
theorem C2_next_time_later_and_aligned_witness :
    60 ∈ INTERVAL_PRESETS ∧ (⟨2, 10, 7, 3, 9⟩ : DateTime).WF ∧
    ((⟨2, 10, 7, 3, 9⟩ : DateTime).toMicros <
        (get_next_interval_time 60 ⟨2, 10, 7, 3, 9⟩).toMicros ∧
     ((get_next_interval_time 60 ⟨2, 10, 7, 3, 9⟩).minutesOfDay % 60 = 0 ∨
      ((get_next_interval_time 60 ⟨2, 10, 7, 3, 9⟩).hour = 4 ∧
       (get_next_interval_time 60 ⟨2, 10, 7, 3, 9⟩).weekday ≤ 4))) :=
  ⟨by decide, by decide,
    C2_next_time_later_and_aligned 60 (by decide) ⟨2, 10, 7, 3, 9⟩ (by decide)⟩

/--
C5: cache lookups are invariant under the case of the requested symbol:
`get_cached_stock` uppercases the symbol before every lookup and store, so a
lookup for `s` and a lookup for `upper s` read and write the same entry and
produce identical results (result, cache state, and fetch-invocation flag).
-/
theorem C5_cache_case_invariant (c : Cache Q) (s : String)
    (fetch : String → Option Q) (now : Int) :
    get_cached_stock c s fetch now = get_cached_stock c (upper s) fetch now := by
  unfold get_cached_stock
  rw [upper_idem]

/--
C6: when the underlying fetch yields absence, `get_cached_stock` leaves the
cache completely unchanged (no entry created, prior entries — even expired
ones — untouched), and whenever the fetch was actually invoked the call
returns absence.
-/
theorem C6_failed_fetch_preserves_cache (c : Cache Q) (s : String)
    (fetch : String → Option Q) (now : Int) (hf : fetch (upper s) = none) :
    (get_cached_stock c s fetch now).2.1 = c ∧
    ((get_cached_stock c s fetch now).2.2 = true →
      (get_cached_stock c s fetch now).1 = none) := by
  cases hc : cacheFind c (upper s) with
  | none => simp [get_cached_stock, hc, hf]
  | some p =>
    obtain ⟨d, ts⟩ := p
    by_cases hts : now - ts < CACHE_TTL
    · simp [get_cached_stock, hc, hts]
    · simp [get_cached_stock, hc, hts, hf]

/-- C6 witness: an expired entry for `"A"` survives a failing lookup for
`"a"` untouched, and the lookup reports absence. -/
theorem C6_failed_fetch_preserves_cache_witness :
    ((fun _ => (none : Option Nat)) (upper "a") = none) ∧
    ((get_cached_stock [("A", 1, -100)] "a" (fun _ => none) 0).2.1 =
        [("A", (1 : Nat), (-100 : Int))] ∧
     ((get_cached_stock [("A", 1, -100)] "a" (fun _ => none) 0).2.2 = true →
       (get_cached_stock [("A", 1, -100)] "a" (fun _ => none) 0).1 = none)) :=
  ⟨rfl, C6_failed_fetch_preserves_cache [("A", 1, -100)] "a" (fun _ => none) 0 rfl⟩

/--
C4 as stated fails on the code: a failed fetch is not cached, so two
lookups of the same symbol within the TTL can invoke the underlying fetch
twice.  Concretely, on an empty cache with a fetch that yields absence,
lookups at times 0 and 1 (1 second apart, well within the 60-second TTL)
both invoke the fetch.
-/
theorem C4_counterexample :
    (get_cached_stock ([] : Cache Nat) "A" (fun _ => none) 0).2.2 = true ∧
    (get_cached_stock
        (get_cached_stock ([] : Cache Nat) "A" (fun _ => none) 0).2.1
        "A" (fun _ => none) 1).2.2 = true ∧
    (1 : Int) - 0 < CACHE_TTL := by
  refine ⟨rfl, rfl, by decide⟩

/--
C4 amended: provided the underlying fetch yields data for the symbol, the
TTL contract holds: (1) a lookup finding an entry younger than the TTL
returns the cached data without fetching and leaves the cache unchanged;
(2) two lookups of the same symbol less than TTL seconds apart invoke the
fetch at most once; (3) a lookup finding an entry at least TTL seconds old
invokes the fetch again.
-/
theorem C4_amended_ttl_contract (c : Cache Q) (s : String)
    (fetch : String → Option Q) (t0 t1 : Int)
    (hf : (fetch (upper s)).isSome = true) (ht : t1 - t0 < CACHE_TTL) :
    (∀ d ts, cacheFind c (upper s) = some (d, ts) → t0 - ts < CACHE_TTL →
        get_cached_stock c s fetch t0 = (some d, c, false)) ∧
    ((get_cached_stock c s fetch t0).2.2.toNat +
        (get_cached_stock (get_cached_stock c s fetch t0).2.1 s
          fetch t1).2.2.toNat ≤ 1) ∧
    (∀ d ts, cacheFind c (upper s) = some (d, ts) → CACHE_TTL ≤ t0 - ts →
        (get_cached_stock c s fetch t0).2.2 = true) := by
  obtain ⟨q, hq⟩ := Option.isSome_iff_exists.mp hf
  refine ⟨?_, ?_, ?_⟩
  · intro d ts hfind hfresh
    simp [get_cached_stock, hfind, hfresh]
  · cases hc : cacheFind c (upper s) with
    | some p =>
      obtain ⟨d, ts⟩ := p
      by_cases hts : t0 - ts < CACHE_TTL
      · simp only [get_cached_stock, hc, hts, if_true]
        split <;> simp [hq]
      · simp only [get_cached_stock, hc, hts, if_false]
        simp [hq, cacheFind, ht]
    | none =>
      simp only [get_cached_stock, hc]
      simp [hq, cacheFind, ht]
  · intro d ts hfind hexp
    simp only [get_cached_stock, hfind]
    rw [if_neg (by omega)]
    cases fetch (upper s) <;> simp

/-- C4 amended witness: a fresh entry for `"A"` at time 0, a succeeding
fetch, and two lookups at times 100 and 120. -/
theorem C4_amended_ttl_contract_witness :
    ((fun _ => some (9 : Nat)) (upper "a")).isSome = true ∧
    (120 : Int) - 100 < CACHE_TTL ∧
    ((∀ d ts, cacheFind [("A", (5 : Nat), (0 : Int))] (upper "a") = some (d, ts) →
        (100 : Int) - ts < CACHE_TTL →
        get_cached_stock [("A", 5, 0)] "a" (fun _ => some 9) 100 =
          (some d, [("A", 5, 0)], false)) ∧
     ((get_cached_stock [("A", (5 : Nat), (0 : Int))] "a" (fun _ => some 9)
          100).2.2.toNat +
        (get_cached_stock
          (get_cached_stock [("A", (5 : Nat), (0 : Int))] "a"
            (fun _ => some 9) 100).2.1 "a" (fun _ => some 9) 120).2.2.toNat ≤ 1) ∧
     (∀ d ts, cacheFind [("A", (5 : Nat), (0 : Int))] (upper "a") = some (d, ts) →
        CACHE_TTL ≤ (100 : Int) - ts →
        (get_cached_stock [("A", 5, 0)] "a" (fun _ => some 9) 100).2.2 = true)) :=
  ⟨rfl, by decide,
    C4_amended_ttl_contract [("A", 5, 0)] "a" (fun _ => some 9) 100 120 rfl
      (by decide)⟩

/-- A batch over symbols that all miss the cache and all fail to fetch
yields an all-`none` result list, an unchanged cache, and one fetch
invocation per symbol. -/
lemma fetch_all_stocks_all_none (fetch : String → Option Q) (now : Int)
    (ts : List String) :
    ∀ c : Cache Q,
      (∀ s ∈ ts, cacheFind c (upper s) = none ∧ fetch (upper s) = none) →
      fetch_all_stocks c fetch now ts = (ts.map fun _ => none, c, ts.length) := by
  induction ts with
  | nil => intro c _; rfl
  | cons t ts ih =>
    intro c h
    have ht := h t (List.mem_cons_self t ts)
    simp only [fetch_all_stocks, get_cached_stock, ht.1, ht.2]
    rw [ih c fun s hs => h s (List.mem_cons_of_mem _ hs)]
    simp [Nat.add_comm]

/-- A nonempty all-`none` batch renders as the empty-state description. -/
lemma description_all_none (renderLine : Q → String) (l : List (Option Q))
    (hne : l ≠ []) (hall : ∀ x ∈ l, x = none) :
    create_stock_embed_description renderLine l = "No valid stock data." := by
  unfold create_stock_embed_description
  rw [if_neg (by simpa using hne)]
  have hfm : l.filterMap id = [] := List.filterMap_eq_nil_iff.mpr hall
  simp [hfm]

/--
C7: one update cycle is a no-op — no send, no fetch invocation, cache
untouched — whenever the configuration has no channel id or an empty
watch-list, or `is_trading_hours` is false, or the channel cannot be
resolved; each gate returns normally (plain early return, not an error).
-/
theorem C7_gating_noop (config : Config) (now : DateTime)
    (getChannel : Int → Option Unit) (renderLine : Q → String)
    (c : Cache Q) (fetch : String → Option Q) (fetchNow : Int)
    (h : config.channel_id = none ∨ config.stocks = [] ∨
      is_trading_hours now = false ∨
      ∀ cid, config.channel_id = some cid → getChannel cid = none) :
    run_scheduled_update config now getChannel renderLine c fetch fetchNow =
      ([], c, 0) := by
  unfold run_scheduled_update
  rcases h with h | h | h | h
  · simp [h, truthyChannel]
  · simp [h]
  · simp [h]
  · cases hcid : config.channel_id with
    | none => simp [hcid, truthyChannel]
    | some cid => simp [hcid, h cid hcid]

/-- C7 witness: a configuration without a channel id. -/
theorem C7_gating_noop_witness :
    ((⟨none, ["AAPL"], 60⟩ : Config).channel_id = none ∨
     (⟨none, ["AAPL"], 60⟩ : Config).stocks = [] ∨
     is_trading_hours ⟨2, 10, 0, 0, 0⟩ = false ∨
     ∀ cid, (⟨none, ["AAPL"], 60⟩ : Config).channel_id = some cid →
       (fun _ => some ()) cid = none) ∧
    run_scheduled_update ⟨none, ["AAPL"], 60⟩ ⟨2, 10, 0, 0, 0⟩
        (fun _ => some ()) (fun n : Nat => toString n) [] (fun _ => some 3) 0 =
      ([], [], 0) :=
  ⟨Or.inl rfl,
    C7_gating_noop ⟨none, ["AAPL"], 60⟩ ⟨2, 10, 0, 0, 0⟩ (fun _ => some ())
      (fun n : Nat => toString n) [] (fun _ => some 3) 0 (Or.inl rfl)⟩

/--
C8: when every gate passes but every fetch in the batch yields absence (and
nothing usable is cached), the cycle still performs exactly one send, whose
payload is the empty-state description `"No valid stock data."`.
-/
theorem C8_all_absent_posts_empty_state (config : Config) (now : DateTime)
    (getChannel : Int → Option Unit) (renderLine : Q → String)
    (c : Cache Q) (fetch : String → Option Q) (fetchNow : Int) (cid : Int)
    (hcid : config.channel_id = some cid) (hcid0 : cid ≠ 0)
    (hstocks : config.stocks ≠ []) (htrade : is_trading_hours now = true)
    (hchan : getChannel cid = some ())
    (habs : ∀ s ∈ config.stocks,
      cacheFind c (upper s) = none ∧ fetch (upper s) = none) :
    (run_scheduled_update config now getChannel renderLine c fetch
        fetchNow).1 = ["No valid stock data."] := by
  unfold run_scheduled_update
  rw [fetch_all_stocks_all_none fetch fetchNow config.stocks c habs]
  simp [hcid, truthyChannel, hcid0, hstocks, htrade, hchan]
  exact description_all_none renderLine _ (by simpa using hstocks) (by simp)

/-- C8 witness: channel 42, watch-list `["AAPL", "MSFT"]`, Wednesday 10:00,
empty cache, fetch always failing. -/
theorem C8_all_absent_posts_empty_state_witness :
    (⟨some 42, ["AAPL", "MSFT"], 60⟩ : Config).channel_id = some 42 ∧
    (42 : Int) ≠ 0 ∧
    (⟨some 42, ["AAPL", "MSFT"], 60⟩ : Config).stocks ≠ [] ∧
    is_trading_hours ⟨2, 10, 0, 0, 0⟩ = true ∧
    (∀ s ∈ (⟨some 42, ["AAPL", "MSFT"], 60⟩ : Config).stocks,
      cacheFind ([] : Cache Nat) (upper s) = none ∧
      (fun _ => (none : Option Nat)) (upper s) = none) ∧
    (run_scheduled_update ⟨some 42, ["AAPL", "MSFT"], 60⟩ ⟨2, 10, 0, 0, 0⟩
        (fun _ => some ()) (fun n : Nat => toString n) [] (fun _ => none)
        0).1 = ["No valid stock data."] :=
  ⟨rfl, by decide, by simp, by decide, by simp [cacheFind],
    C8_all_absent_posts_empty_state ⟨some 42, ["AAPL", "MSFT"], 60⟩
      ⟨2, 10, 0, 0, 0⟩ (fun _ => some ()) (fun n : Nat => toString n) []
      (fun _ => none) 0 42 rfl (by decide) (by simp) (by decide) rfl
      (by simp [cacheFind])⟩

end StockBot
